import Mathlib

/-!
Verification development for the MultiTenantSaaS repository.

The repository has two pipelines:
  - a bias-analysis HTTP service (src/server/services/bias_analysis/main.py and
    src/server/services/bias_analysis/utils.py), and
  - a model-updates scraper (src/scripts/model_updates_scraper.py).

This file gives a shallow embedding of the data model and the operations of
both pipelines and proves properties about them.  Conventions:
  - Python float cells are modelled as rationals; the three non-finite IEEE
    values nan, inf and -inf are modelled by dedicated constructors of `FVal`.
    A protected-attribute cell after mapping is `Option Rat` with `none`
    playing the role of NaN (the only use of NaN there is the is-NaN test and
    the row drop).
  - pandas string columns are `List String`; `df[attr].unique()` preserves
    first-seen order and is modelled by `uniqueVals`; Python `sorted` on
    strings compares by code point and is modelled by `sortStrings` built on a
    structural code-point comparison `strLe`.
  - raised exceptions are modelled with `Except`; each distinct error site of
    the source gets its own constructor of `BiasError` carrying exactly the
    data that the corresponding message interpolates (attribute name, observed
    values), so that an error value names the attribute and values the way the
    HTTP detail string does.
  - the fairness library (aif360), the file parsers (pandas readers) and the
    feed parser are external collaborators; functions of this repository that
    call them take the outcome of the external call as an argument.
-/

namespace MultiTenantSaaS

/-- Code-point comparison of char lists, mirroring how Python compares
strings lexicographically.  Structural so that the kernel can evaluate it. -/
def charListLe : List Char → List Char → Bool
  | [], _ => true
  | _ :: _, [] => false
  | a :: as, b :: bs =>
    if a.val.toNat < b.val.toNat then true
    else if b.val.toNat < a.val.toNat then false
    else charListLe as bs

/-- Lexicographic less-or-equal on strings by code point. -/
def strLe (a b : String) : Bool := charListLe a.data b.data

/-- Model of Python sorted on a list of strings. -/
def sortStrings (xs : List String) : List String :=
  List.insertionSort (fun a b => strLe a b = true) xs

/-- Suffix check used to model str.endswith on file names. -/
def leadMatch : List Char → List Char → Bool
  | [], _ => true
  | _ :: _, [] => false
  | a :: as, b :: bs => (a == b) && leadMatch as bs

/-- Model of Python str.endswith. -/
def strEndsWith (s suff : String) : Bool := leadMatch suff.data.reverse s.data.reverse

/-- Lower-case ASCII letter test. -/
def isLowerAlpha (c : Char) : Bool := 97 ≤ c.val.toNat && c.val.toNat ≤ 122

/-- Upper-case ASCII letter test. -/
def isUpperAlpha (c : Char) : Bool := 65 ≤ c.val.toNat && c.val.toNat ≤ 90

/-- ASCII letter test. -/
def isAlphaCh (c : Char) : Bool := isLowerAlpha c || isUpperAlpha c

/-- Upper-case an ASCII letter. -/
def toUpperCh (c : Char) : Char := if isLowerAlpha c then Char.ofNat (c.val.toNat - 32) else c

/-- Lower-case an ASCII letter. -/
def toLowerCh (c : Char) : Char := if isUpperAlpha c then Char.ofNat (c.val.toNat + 32) else c

/-- Model of Python str.title on ASCII text: the first letter of every
letter run is upper-cased, later letters of the run are lower-cased.  The
flag records whether the previous char was a letter. -/
def titleMap : Bool → List Char → List Char
  | _, [] => []
  | prevAlpha, c :: cs =>
    (if isAlphaCh c then (if prevAlpha then toLowerCh c else toUpperCh c) else c)
      :: titleMap (isAlphaCh c) cs

/-- Display name of a metric: underscores become spaces and the result is
title-cased, modelling the chain replace then title of both formatters. -/
def displayName (s : String) : String :=
  ⟨titleMap false (s.data.map (fun c => if c == '_' then ' ' else c))⟩

/-- Distinct values of a list in first-seen order, modelling the pandas
Series.unique method. -/
def uniqueVals {α : Type} [DecidableEq α] (xs : List α) : List α :=
  xs.foldl (fun acc x => if x ∈ acc then acc else acc ++ [x]) []

/-- Float value produced by the metric library: a finite rational or one of
the non-finite IEEE values. -/
inductive FVal where
  | nan
  | inf
  | ninf
  | num (q : ℚ)
deriving DecidableEq

/-- Python comparison score > threshold on a possibly non-finite score; any
comparison with NaN is false. -/
def FVal.gtQ : FVal → ℚ → Bool
  | .nan, _ => false
  | .inf, _ => true
  | .ninf, _ => false
  | .num q, t => decide (t < q)

/-- Python comparison abs(score) < threshold; false on every non-finite
score because abs maps nan to nan and both infinities to inf. -/
def FVal.absLtQ : FVal → ℚ → Bool
  | .num q, t => decide (|q| < t)
  | _, _ => false

/-- Python chained comparison lo <= score <= hi; false on every non-finite
score. -/
def FVal.inRange : FVal → ℚ → ℚ → Bool
  | .num q, lo, hi => decide (lo ≤ q ∧ q ≤ hi)
  | _, _, _ => false

/-- Mapping values for one side of a group mapping: the service accepts a
single string or a list of strings (main.py lines 173-177). -/
inductive StrOrList where
  | str (s : String)
  | list (l : List String)
deriving DecidableEq

/-- Normalisation of a mapping side to a list, modelling the wrap of a
non-list value into a singleton list. -/
def StrOrList.toList : StrOrList → List String
  | .str s => [s]
  | .list l => l

/-- Group mapping for one protected attribute, a dict that may lack either
key; a missing key is a KeyError in preprocess_data and an invalid-mapping
error in simple_detect_groups. -/
structure GroupMapping where
  privileged : Option StrOrList
  unprivileged : Option StrOrList
deriving DecidableEq

/-- Collection of group mappings keyed by attribute name, modelling the
group_mappings dict of the request. -/
abbrev GMap := List (String × GroupMapping)

/-- Dict lookup of the mapping of one attribute. -/
def lookupMapping (gms : GMap) (attr : String) : Option GroupMapping :=
  (gms.find? (fun p => p.1 = attr)).map (fun p => p.2)

/-- Error raised by the bias-analysis service; each constructor is one
raise site and carries the data its message interpolates. -/
inductive BiasError where
  /-- main.py line 194 and line 216: after mapping, 1.0 or 0.0 is missing
  from the protected column; carries the attribute and observed values. -/
  | bothGroupsMissing (attr : String) (observed : List ℚ)
  /-- main.py line 200: more than two distinct values and no mapping;
  carries the attribute and the sorted observed values. -/
  | tooManyUnique (attr : String) (observed : List String)
  /-- main.py line 203 and line 361: fewer than two distinct values;
  carries the attribute and the observed values. -/
  | notEnoughUnique (attr : String) (observed : List String)
  /-- main.py line 213: NaN present after fallback mapping; carries the
  attribute and the distinct unmapped source values. -/
  | unmappedFallback (attr : String) (observed : List String)
  /-- KeyError on a mapping dict missing the privileged or unprivileged
  key inside preprocess_data, wrapped into a 400 at main.py line 223. -/
  | missingMappingKey (attr : String)
  /-- main.py line 450: re-check at dataset creation found 1.0 or 0.0
  missing; carries the attribute and observed values. -/
  | datasetCheckFailed (attr : String) (observed : List ℚ)
  /-- main.py line 273: thresholds dict lookup raised KeyError for a
  metric name outside the dict. -/
  | keyError (name : String)
  /-- main.py line 383 wrapping an IndexError: protected_attributes is
  empty so protected_attributes[0] fails. -/
  | indexError
  /-- main.py line 320: the protected attribute is not a column. -/
  | attrNotFound (attr : String) (columns : List String)
  /-- main.py line 352: a mapping exists for the attribute but lacks the
  privileged or unprivileged key. -/
  | invalidMapping (attr : String)
deriving DecidableEq

/-- Decidable equality of Except values, used to evaluate concrete runs
of the embedded functions. -/
instance exceptDecEq {ε α : Type} [DecidableEq ε] [DecidableEq α] : DecidableEq (Except ε α)
  | .ok a, .ok b =>
    if h : a = b then .isTrue (congrArg Except.ok h)
    else .isFalse (fun hc => h (Except.ok.inj hc))
  | .ok _, .error _ => .isFalse (fun hc => Except.noConfusion hc)
  | .error _, .ok _ => .isFalse (fun hc => Except.noConfusion hc)
  | .error e, .error f =>
    if h : e = f then .isTrue (congrArg Except.error h)
    else .isFalse (fun hc => h (Except.error.inj hc))

/-- Per-cell explicit mapping of main.py line 179: privileged values to
1.0, unprivileged values to 0.0, all other values to NaN (none). -/
def mapExplicit (priv unpriv : List String) (x : String) : Option ℚ :=
  if x ∈ priv then some 1 else if x ∈ unpriv then some 0 else none

/-- Mapped protected column after the NaN-row drop of main.py lines
184-190: rows mapping to NaN are removed.  When no cell is NaN the drop is
the identity, so applying filterMap unconditionally models both branches. -/
def explicitDropped (priv unpriv : List String) (col : List String) : List ℚ :=
  (col.map (mapExplicit priv unpriv)).filterMap id

/-- Explicit-mapping branch of preprocess_data (main.py lines 169-194) for
one protected attribute: normalise both mapping sides to lists, map cells,
drop NaN rows, then require both 1.0 and 0.0 to be present. -/
def preprocessExplicit (attr : String) (col : List String) (m : GroupMapping) :
    Except BiasError (List ℚ) :=
  match m.privileged, m.unprivileged with
  | some pv, some uv =>
    let dropped := explicitDropped pv.toList uv.toList col
    if (1 : ℚ) ∈ uniqueVals dropped ∧ (0 : ℚ) ∈ uniqueVals dropped then .ok dropped
    else .error (.bothGroupsMissing attr (uniqueVals dropped))
  | _, _ => .error (.missingMappingKey attr)

/-- Per-cell fallback mapping of main.py line 206: the chosen privileged
value to 1.0, the chosen unprivileged value to 0.0, others to NaN. -/
def fallbackMap (p u : String) (x : String) : Option ℚ :=
  if x = p then some 1 else if x = u then some 0 else none

/-- Fallback branch of preprocess_data (main.py lines 196-216) for one
protected attribute: sort the distinct values, reject more than two or
fewer than two of them, map the two to 1.0 and 0.0, reject any NaN without
dropping rows, then require both 1.0 and 0.0 to be present. -/
def preprocessFallback (attr : String) (col : List String) : Except BiasError (List ℚ) :=
  match sortStrings (uniqueVals col) with
  | [p, u] =>
    let mapped := col.map (fallbackMap p u)
    if mapped.any (fun c => c.isNone) then
      .error (.unmappedFallback attr (uniqueVals (col.filter (fun x => (fallbackMap p u x).isNone))))
    else
      let kept := mapped.filterMap id
      if (1 : ℚ) ∈ uniqueVals kept ∧ (0 : ℚ) ∈ uniqueVals kept then .ok kept
      else .error (.bothGroupsMissing attr (uniqueVals kept))
  | uvs =>
    if 2 < uvs.length then .error (.tooManyUnique attr uvs)
    else .error (.notEnoughUnique attr uvs)

/-- Protected-attribute portion of preprocess_data (main.py lines 166-216)
for one attribute whose column is present: the explicit branch is taken
exactly when group_mappings holds the attribute, else the fallback branch.
The column is the attribute column after the astype(str) conversion of
main.py line 150. -/
def preprocess_data (attr : String) (col : List String) (gms : GMap) :
    Except BiasError (List ℚ) :=
  match lookupMapping gms attr with
  | some m => preprocessExplicit attr col m
  | none => preprocessFallback attr col

/-- Re-check of create_dataset (main.py lines 444-456): the set of values
of the mapped protected column must contain both 1.0 and 0.0. -/
def createDatasetCheck (attr : String) (col : List ℚ) : Except BiasError Unit :=
  if (1 : ℚ) ∈ uniqueVals col ∧ (0 : ℚ) ∈ uniqueVals col then .ok ()
  else .error (.datasetCheckFailed attr (uniqueVals col))

/-- Fallback choice of source values made by preprocess_data (main.py
lines 197 and 204-205): the first two entries of the sorted distinct
values, defined when exactly two distinct values exist because the
function rejects every other cardinality before choosing. -/
def preprocessFallbackChoice (col : List String) : Option (String × String) :=
  match sortStrings (uniqueVals col) with
  | [p, u] => some (p, u)
  | _ => none

/-- Fallback choice of source values made by simple_detect_groups
(main.py lines 368-369): the first two distinct values of the raw column
in first-seen order, without sorting. -/
def simpleDetectFallbackChoice (col : List String) : Option (String × String) :=
  match uniqueVals col with
  | p :: u :: _ => some (p, u)
  | _ => none

/-- Data frame for group detection: named columns of raw cells, as built
from the request records at main.py line 516. -/
abbrev DataFrame := List (String × List String)

/-- Column names of a data frame. -/
def dfColumns (df : DataFrame) : List String := df.map (fun c => c.1)

/-- Column of a data frame by name. -/
def dfCol (df : DataFrame) (name : String) : Option (List String) :=
  (df.find? (fun c => c.1 = name)).map (fun c => c.2)

/-- Body of simple_detect_groups (main.py lines 317-377) for the first
protected attribute: the attribute must be a column; with a mapping
holding both keys, or without a mapping but with at least two distinct
values, the returned groups are the constant pair of singleton dicts attr
to 1.0 and attr to 0.0. -/
def simpleDetectGroupsAttr (df : DataFrame) (attr : String) (gms : GMap) :
    Except BiasError (List (String × ℚ) × List (String × ℚ)) :=
  match dfCol df attr with
  | none => .error (.attrNotFound attr (dfColumns df))
  | some col =>
    match lookupMapping gms attr with
    | some m =>
      match m.privileged, m.unprivileged with
      | some _, some _ => .ok ([(attr, 1)], [(attr, 0)])
      | _, _ => .error (.invalidMapping attr)
    | none =>
      if (uniqueVals col).length < 2 then
        .error (.notEnoughUnique attr (uniqueVals col))
      else .ok ([(attr, 1)], [(attr, 0)])

/-- Model of simple_detect_groups (main.py lines 312-383): only the first
protected attribute is used (main.py line 316); an empty attribute list
is an IndexError caught by the outer handler. -/
def simple_detect_groups (df : DataFrame) (protected_attributes : List String)
    (gms : GMap) : Except BiasError (List (String × ℚ) × List (String × ℚ)) :=
  match protected_attributes with
  | [] => .error .indexError
  | attr :: _ => simpleDetectGroupsAttr df attr gms

namespace BiasMain

/-- Model of safe_float (main.py lines 254-258): NaN and both infinities
become None, finite values pass through. -/
def safe_float : FVal → Option FVal
  | .nan => none
  | .inf => none
  | .ninf => none
  | .num q => some (.num q)

/-- Model of determine_metric_status of main.py lines 248-252: disparate
impact passes iff score is strictly above the threshold, every other
metric passes iff the absolute score is strictly below it. -/
def determine_metric_status (score : FVal) (threshold : ℚ) (metric_type : String) : String :=
  if metric_type = "disparate_impact" then
    if score.gtQ threshold then "pass" else "fail"
  else if score.absLtQ threshold then "pass" else "fail"

/-- Thresholds dict of format_results_for_output (main.py lines 262-266);
a name outside the dict is a KeyError, hence Option. -/
def thresholds (name : String) : Option ℚ :=
  if name = "statistical_disparity" then some (1 / 10)
  else if name = "disparate_impact" then some (4 / 5)
  else if name = "equal_opportunity" then some (1 / 10)
  else none

/-- Formatted result row of main.py lines 270-276. -/
structure ResultEntry where
  metric_name : String
  score : Option FVal
  threshold : ℚ
  status : String
  demographic_group : String
deriving DecidableEq

/-- Model of format_results_for_output of main.py lines 260-277: one row
per metric in order; the threshold lookup raises KeyError on an unknown
name, aborting the whole formatting. -/
def format_results_for_output : List (String × FVal) → Except BiasError (List ResultEntry)
  | [] => .ok []
  | (name, v) :: rest =>
    match thresholds name with
    | none => .error (.keyError name)
    | some th =>
      match format_results_for_output rest with
      | .error e => .error e
      | .ok out =>
        .ok ({ metric_name := displayName name, score := safe_float v, threshold := th,
               status := determine_metric_status v th name,
               demographic_group := "overall" } :: out)

end BiasMain

namespace BiasUtils

/-- Thresholds dict of utils.py lines 56-63 read through dict.get with
default 0.1, so total. -/
def utilsThresholds (name : String) : ℚ :=
  if name = "statistical_disparity" then 1 / 10
  else if name = "disparate_impact" then 4 / 5
  else if name = "equal_opportunity_difference" then 1 / 10
  else if name = "average_odds_difference" then 1 / 10
  else 1 / 10

/-- Model of determine_metric_status of utils.py lines 52-70: disparate
impact passes iff the value lies in the inclusive range 0.8 to 1.2, every
other metric passes iff the absolute value is strictly below the
threshold; returns the status together with the threshold. -/
def determine_metric_status (metric_value : FVal) (metric_name : String) : String × ℚ :=
  let threshold := utilsThresholds metric_name
  if metric_name = "disparate_impact" then
    (if metric_value.inRange (4 / 5) (6 / 5) then "pass" else "fail", threshold)
  else
    (if metric_value.absLtQ threshold then "pass" else "fail", threshold)

/-- Formatted result row of utils.py lines 81-90; the score field holds
the raw metric value, no safe_float is applied in this variant. -/
structure UtilsResultEntry where
  metric_name : String
  score : Option FVal
  threshold : ℚ
  status : String
deriving DecidableEq

/-- Model of format_results_for_output of utils.py lines 72-94: one row
per metric, score taken verbatim from the input value. -/
def format_results_for_output (metrics : List (String × FVal)) : List UtilsResultEntry :=
  metrics.map (fun p =>
    let st := determine_metric_status p.2 p.1
    { metric_name := displayName p.1, score := some p.2, threshold := st.2, status := st.1 })

end BiasUtils

/-- Composition of the per-request stages for one protected attribute:
preprocessing, the dataset-creation re-check, metric computation by the
external fairness library (passed as a function) and formatting, as wired
by create_dataset and analyze_bias in main.py.  An error at any stage
short-circuits, so no metric result is produced after a failure. -/
def analyzePipeline (computeMetrics : List ℚ → List (String × FVal))
    (attr : String) (col : List String) (gms : GMap) :
    Except BiasError (List BiasMain.ResultEntry) :=
  match preprocess_data attr col gms with
  | .error e => .error e
  | .ok mapped =>
    match createDatasetCheck attr mapped with
    | .error e => .error e
    | .ok _ => BiasMain.format_results_for_output (computeMetrics mapped)

/-- Row produced by run_bias_analysis (main.py lines 558-586): either a
formatted result dict or, because the function catches every exception of
the inner analysis, a dict with a single error message. -/
inductive RunRow where
  | entry (e : BiasMain.ResultEntry)
  | err (msg : String)
deriving DecidableEq

/-- Row of the combined batch output of analyze_folder: every row coming
out of run_bias_analysis gets the file name attached (main.py lines
659-660), and the per-file exception handler appends a dict holding the
file name and the error message (main.py line 663). -/
inductive BatchRow where
  | result (file : String) (e : BiasMain.ResultEntry)
  | err (file : String) (msg : String)
deriving DecidableEq

/-- Attachment of the file name to one row of run_bias_analysis output. -/
def tagRow (file : String) : RunRow → BatchRow
  | .entry e => .result file e
  | .err m => .err file m

/-- File contained in the uploaded zip: its name and the outcome of the
external pandas reader on it (main.py lines 652-655); a reader exception
is the error case.  The table type is abstract. -/
structure BatchFile (τ : Type) where
  name : String
  readResult : Except String τ

/-- Model of run_bias_analysis (main.py lines 558-586): the inner analysis
outcome is supplied by the analyze argument; a raised error is caught and
returned as a single error row, so this function itself never raises. -/
def run_bias_analysis {τ : Type} (analyze : Option GMap → τ → Except String (List BiasMain.ResultEntry))
    (gm : Option GMap) (t : τ) : List RunRow :=
  match analyze gm t with
  | .ok rs => rs.map RunRow.entry
  | .error e => [RunRow.err e]

/-- Extension filter of the batch loop (main.py line 650). -/
def extOk (name : String) : Bool :=
  strEndsWith name ".csv" || strEndsWith name ".xlsx" || strEndsWith name ".xls"

/-- Rows contributed by one successfully read file of the batch: a failed
evaluation of the group-mappings parameter is caught per file and becomes
an error row for that file, otherwise every run_bias_analysis row is
tagged with the file name. -/
def fileRows {τ : Type} (analyze : Option GMap → τ → Except String (List BiasMain.ResultEntry))
    (gmEval : Except String (Option GMap)) (f : BatchFile τ) : List BatchRow :=
  match f.readResult with
  | .error _ => []
  | .ok t =>
    match gmEval with
    | .error e => [BatchRow.err f.name e]
    | .ok gm => (run_bias_analysis analyze gm t).map (tagRow f.name)

/-- Model of the per-file loop of analyze_folder (main.py lines 648-663).
Files with other extensions are skipped.  The pandas read of a kept file
happens before the try block, so a reader error propagates and aborts the
whole batch.  Inside the try block, the evaluation of the group-mappings
parameter and the analysis run are caught per file: a failure there
becomes an error row carrying the file name and the loop continues. -/
def analyze_folder_loop {τ : Type}
    (analyze : Option GMap → τ → Except String (List BiasMain.ResultEntry))
    (gmEval : Except String (Option GMap)) :
    List (BatchFile τ) → Except String (List BatchRow)
  | [] => .ok []
  | f :: fs =>
    if extOk f.name then
      match f.readResult with
      | .error e => .error e
      | .ok t =>
        let rows :=
          match gmEval with
          | .error e => [BatchRow.err f.name e]
          | .ok gm => (run_bias_analysis analyze gm t).map (tagRow f.name)
        match analyze_folder_loop analyze gmEval fs with
        | .error e => .error e
        | .ok rest => .ok (rows ++ rest)
    else analyze_folder_loop analyze gmEval fs

namespace Scraper

/-- Feed entry as consumed by scrape_model_updates: the published field is
the parsed publish timestamp, none when published_parsed is absent or
falsy (src/scripts/model_updates_scraper.py line 57). -/
structure FeedEntry where
  published : Option Int
  title : String
  link : String
  summary : String
deriving DecidableEq

/-- Record built from one kept feed entry (model_updates_scraper.py lines
65-72); also the row shape of the frontier_model_updates table. -/
structure UpdateRecord where
  frontier_model_id : Nat
  title : String
  description : String
  update_type : String
  source_url : String
  update_date : Int
deriving DecidableEq

/-- Record construction of model_updates_scraper.py lines 65-72; the clean
argument models clean_summary, the helper that strips HTML and keeps the
first sentence of the entry summary. -/
def mkRecord (clean : String → String) (modelId : Nat) (updateType : String)
    (e : FeedEntry) (published : Int) : UpdateRecord :=
  { frontier_model_id := modelId, title := e.title, description := clean e.summary,
    update_type := updateType, source_url := e.link, update_date := published }

/-- Model of the inner entry loop of scrape_model_updates
(model_updates_scraper.py lines 55-76) for one model and category: entries
without a parsed publish timestamp are skipped, entries older than the
cutoff are skipped, a kept entry becomes a record, and after the count of
kept entries reaches max_results the loop breaks.  The count is
incremented before the break test, matching the Python order. -/
def collectEntries (clean : String → String) (cutoff : Int) (maxResults : Nat)
    (modelId : Nat) (updateType : String) : List FeedEntry → Nat → List UpdateRecord
  | [], _ => []
  | e :: es, count =>
    match e.published with
    | none => collectEntries clean cutoff maxResults modelId updateType es count
    | some published =>
      if published < cutoff then
        collectEntries clean cutoff maxResults modelId updateType es count
      else
        let r := mkRecord clean modelId updateType e published
        if maxResults ≤ count + 1 then [r]
        else r :: collectEntries clean cutoff maxResults modelId updateType es (count + 1)

/-- State of the destination table frontier_model_updates together with
the number of transaction commits performed on the connection. -/
structure DBState where
  table : List UpdateRecord
  commits : Nat
deriving DecidableEq

/-- Semantics of one row of the batch statement of insert_into_db
(model_updates_scraper.py lines 98-107): on a source_url conflict the
existing row keeps its frontier_model_id and source_url and takes the
title, description, update_type and update_date of the excluded row,
otherwise the row is appended. -/
def upsertRow (t : List UpdateRecord) (r : UpdateRecord) : List UpdateRecord :=
  if t.any (fun row => row.source_url = r.source_url) then
    t.map (fun row =>
      if row.source_url = r.source_url then
        { row with title := r.title, description := r.description,
                   update_type := r.update_type, update_date := r.update_date }
      else row)
  else t ++ [r]

/-- Model of insert_into_db (model_updates_scraper.py lines 81-113): an
empty batch returns 0 without touching the connection; otherwise the
records are applied as one batch statement, one commit is performed, and
the record count is returned. -/
def insert_into_db (st : DBState) (records : List UpdateRecord) : DBState × Nat :=
  if records.isEmpty then (st, 0)
  else ({ table := records.foldl upsertRow st.table, commits := st.commits + 1 },
        records.length)

end Scraper

/-- Sample feed entry without a parseable publish timestamp, for witness
statements. -/
def sampleEntryNoDate : Scraper.FeedEntry :=
  { published := none, title := "t", link := "l", summary := "s" }

/-- Sample stored row, for witness statements. -/
def sampleRowA : Scraper.UpdateRecord :=
  { frontier_model_id := 1, title := "t1", description := "d1",
    update_type := "security", source_url := "u", update_date := 10 }

/-- Sample incoming record sharing the source_url of sampleRowA, for
witness statements. -/
def sampleRecB : Scraper.UpdateRecord :=
  { frontier_model_id := 2, title := "t2", description := "d2",
    update_type := "feature", source_url := "u", update_date := 20 }

/-! Helper lemmas. -/

theorem charListLe_total : ∀ a b : List Char, charListLe a b = true ∨ charListLe b a = true
  | [], _ => Or.inl rfl
  | _ :: _, [] => Or.inr rfl
  | a :: as, b :: bs => by
    simp only [charListLe]
    rcases Nat.lt_trichotomy a.val.toNat b.val.toNat with h | h | h
    · left; rw [if_pos h]
    · rw [if_neg (by omega), if_neg (by omega), if_neg (by omega), if_neg (by omega)]
      exact charListLe_total as bs
    · right; rw [if_pos h]

theorem charListLe_trans : ∀ a b c : List Char,
    charListLe a b = true → charListLe b c = true → charListLe a c = true
  | [], _, _, _, _ => rfl
  | _ :: _, [], _, hab, _ => absurd hab (by simp [charListLe])
  | _ :: _, _ :: _, [], _, hbc => absurd hbc (by simp [charListLe])
  | a :: as, b :: bs, c :: cs, hab, hbc => by
    have ih := charListLe_trans as bs cs
    simp only [charListLe] at hab hbc ⊢
    rcases Nat.lt_trichotomy a.val.toNat b.val.toNat with h1 | h1 | h1
    · rcases Nat.lt_trichotomy b.val.toNat c.val.toNat with h2 | h2 | h2
      · rw [if_pos (by omega)]
      · rw [if_pos (by omega)]
      · rw [if_neg (by omega), if_pos h2] at hbc
        exact absurd hbc (by simp)
    · rcases Nat.lt_trichotomy b.val.toNat c.val.toNat with h2 | h2 | h2
      · rw [if_pos (by omega)]
      · rw [if_neg (by omega), if_neg (by omega)]
        rw [if_neg (by omega), if_neg (by omega)] at hab
        rw [if_neg (by omega), if_neg (by omega)] at hbc
        exact ih hab hbc
      · rw [if_neg (by omega), if_pos h2] at hbc
        exact absurd hbc (by simp)
    · rw [if_neg (by omega), if_pos h1] at hab
      exact absurd hab (by simp)

instance : IsTotal String (fun a b => strLe a b = true) :=
  ⟨fun a b => charListLe_total a.data b.data⟩

instance : IsTrans String (fun a b => strLe a b = true) :=
  ⟨fun a b c => charListLe_trans a.data b.data c.data⟩

theorem sortStrings_sorted (xs : List String) :
    List.Sorted (fun a b => strLe a b = true) (sortStrings xs) :=
  List.sorted_insertionSort _ xs

theorem mem_uniqueVals_foldl {α : Type} [DecidableEq α] (xs : List α) (acc : List α) (a : α) :
    a ∈ xs.foldl (fun acc x => if x ∈ acc then acc else acc ++ [x]) acc ↔ a ∈ acc ∨ a ∈ xs := by
  induction xs generalizing acc with
  | nil => simp
  | cons x xs ih =>
    simp only [List.foldl_cons]
    by_cases hx : x ∈ acc
    · rw [if_pos hx, ih]
      constructor
      · rintro (h | h)
        · exact Or.inl h
        · exact Or.inr (List.mem_cons_of_mem _ h)
      · rintro (h | h)
        · exact Or.inl h
        · rcases List.mem_cons.mp h with rfl | h
          · exact Or.inl hx
          · exact Or.inr h
    · rw [if_neg hx, ih]
      simp only [List.mem_append, List.mem_cons, List.mem_singleton]
      tauto

theorem mem_uniqueVals {α : Type} [DecidableEq α] (xs : List α) (a : α) :
    a ∈ uniqueVals xs ↔ a ∈ xs := by
  unfold uniqueVals
  rw [mem_uniqueVals_foldl]
  simp

theorem mem_mapped_binary (f : String → Option ℚ)
    (hf : ∀ v, f v = some 1 ∨ f v = some 0 ∨ f v = none)
    (col : List String) (x : ℚ) (hx : x ∈ (col.map f).filterMap id) : x = 1 ∨ x = 0 := by
  rcases List.mem_filterMap.mp hx with ⟨o, ho, hid⟩
  rcases List.mem_map.mp ho with ⟨v, _, rfl⟩
  simp only [id] at hid
  rcases hf v with h | h | h <;> rw [h] at hid
  · exact Or.inl (Option.some.inj hid).symm
  · exact Or.inr (Option.some.inj hid).symm
  · exact absurd hid (by simp)

theorem mapExplicit_cases (priv unpriv : List String) (v : String) :
    mapExplicit priv unpriv v = some 1 ∨ mapExplicit priv unpriv v = some 0
      ∨ mapExplicit priv unpriv v = none := by
  unfold mapExplicit
  split_ifs <;> simp

theorem fallbackMap_cases (p u : String) (v : String) :
    fallbackMap p u v = some 1 ∨ fallbackMap p u v = some 0 ∨ fallbackMap p u v = none := by
  unfold fallbackMap
  split_ifs <;> simp

theorem preprocessExplicit_ok (attr : String) (col : List String) (m : GroupMapping)
    (out : List ℚ) (h : preprocessExplicit attr col m = .ok out) :
    (∀ x ∈ out, x = 1 ∨ x = 0) ∧ (1 : ℚ) ∈ out ∧ (0 : ℚ) ∈ out := by
  obtain ⟨mp, mu⟩ := m
  cases mp with
  | none => exact absurd h (by simp [preprocessExplicit])
  | some pv =>
    cases mu with
    | none => exact absurd h (by simp [preprocessExplicit])
    | some uv =>
      simp only [preprocessExplicit] at h
      split_ifs at h with hg
      have hout : explicitDropped pv.toList uv.toList col = out := Except.ok.inj h
      subst hout
      refine ⟨fun x hx => ?_, ?_, ?_⟩
      · exact mem_mapped_binary _ (mapExplicit_cases _ _) col x hx
      · exact (mem_uniqueVals _ _).mp hg.1
      · exact (mem_uniqueVals _ _).mp hg.2

theorem preprocessFallback_ok (attr : String) (col : List String)
    (out : List ℚ) (h : preprocessFallback attr col = .ok out) :
    (∀ x ∈ out, x = 1 ∨ x = 0) ∧ (1 : ℚ) ∈ out ∧ (0 : ℚ) ∈ out := by
  unfold preprocessFallback at h
  split at h
  · rename_i p u hsorted
    dsimp only at h
    split_ifs at h with h1 h2
    have hout : (col.map (fallbackMap p u)).filterMap id = out := Except.ok.inj h
    subst hout
    refine ⟨fun x hx => ?_, ?_, ?_⟩
    · exact mem_mapped_binary _ (fallbackMap_cases _ _) col x hx
    · exact (mem_uniqueVals _ _).mp h2.1
    · exact (mem_uniqueVals _ _).mp h2.2
  · split_ifs at h

theorem preprocess_data_ok (attr : String) (col : List String) (gms : GMap) (out : List ℚ)
    (h : preprocess_data attr col gms = .ok out) :
    (∀ x ∈ out, x = 1 ∨ x = 0) ∧ (1 : ℚ) ∈ out ∧ (0 : ℚ) ∈ out := by
  unfold preprocess_data at h
  cases hl : lookupMapping gms attr <;> rw [hl] at h
  · exact preprocessFallback_ok attr col out h
  · exact preprocessExplicit_ok attr col _ out h

theorem simpleDetectGroupsAttr_ok (df : DataFrame) (attr : String) (gms : GMap)
    (res : List (String × ℚ) × List (String × ℚ))
    (h : simpleDetectGroupsAttr df attr gms = .ok res) :
    res = ([(attr, 1)], [(attr, 0)]) := by
  unfold simpleDetectGroupsAttr at h
  split at h
  · exact absurd h (by simp)
  · split at h
    · split at h
      · exact (Except.ok.inj h).symm
      · exact absurd h (by simp)
    · split_ifs at h with h1
      exact (Except.ok.inj h).symm

theorem simple_detect_groups_ok (df : DataFrame) (attrs : List String) (gms : GMap)
    (res : List (String × ℚ) × List (String × ℚ))
    (h : simple_detect_groups df attrs gms = .ok res) :
    ∃ attr rest, attrs = attr :: rest ∧ res = ([(attr, 1)], [(attr, 0)]) := by
  cases attrs with
  | nil => exact absurd h (by simp [simple_detect_groups])
  | cons attr rest =>
    exact ⟨attr, rest, rfl, simpleDetectGroupsAttr_ok df attr gms res h⟩

theorem filter_ne_length (col : List String) (d : String) :
    (col.filter (fun v => v ≠ d)).length = col.length - col.count d := by
  induction col with
  | nil => rfl
  | cons v vs ih =>
    have hcl : vs.count d ≤ vs.length := List.count_le_length _ _
    by_cases hv : v = d
    · subst hv
      have h1 : (v :: vs).filter (fun w => w ≠ v) = vs.filter (fun w => w ≠ v) := by
        simp [List.filter_cons]
      have h2 : (v :: vs).count v = vs.count v + 1 := by
        simp [List.count_cons]
      rw [h1, h2, ih, List.length_cons]
      omega
    · have h1 : (v :: vs).filter (fun w => w ≠ d) = v :: vs.filter (fun w => w ≠ d) := by
        simp [List.filter_cons, hv]
      have h2 : (v :: vs).count d = vs.count d := by
        simp [List.count_cons, hv]
      rw [h1, h2, List.length_cons, ih, List.length_cons]
      omega

theorem explicitDropped_ABCD (col : List String)
    (hmem : ∀ v ∈ col, v ∈ (["A", "B", "C", "D"] : List String)) :
    explicitDropped ["A"] ["B", "C"] col
      = (col.filter (fun v => v ≠ "D")).map (fun v => if v = "A" then (1 : ℚ) else 0) := by
  induction col with
  | nil => rfl
  | cons v vs ih =>
    have hv := hmem v (List.mem_cons_self v vs)
    have ih2 := ih (fun w hw => hmem w (List.mem_cons_of_mem _ hw))
    simp only [List.mem_cons, List.not_mem_nil, or_false] at hv
    rcases hv with rfl | rfl | rfl | rfl
    · have h1 : explicitDropped ["A"] ["B", "C"] ("A" :: vs)
          = 1 :: explicitDropped ["A"] ["B", "C"] vs := rfl
      have h2 : ("A" :: vs).filter (fun w => w ≠ "D") = "A" :: vs.filter (fun w => w ≠ "D") := by
        simp [List.filter_cons]
      rw [h1, h2, List.map_cons, ih2]
      simp
    · have h1 : explicitDropped ["A"] ["B", "C"] ("B" :: vs)
          = 0 :: explicitDropped ["A"] ["B", "C"] vs := rfl
      have h2 : ("B" :: vs).filter (fun w => w ≠ "D") = "B" :: vs.filter (fun w => w ≠ "D") := by
        simp [List.filter_cons]
      rw [h1, h2, List.map_cons, ih2]
      simp
    · have h1 : explicitDropped ["A"] ["B", "C"] ("C" :: vs)
          = 0 :: explicitDropped ["A"] ["B", "C"] vs := rfl
      have h2 : ("C" :: vs).filter (fun w => w ≠ "D") = "C" :: vs.filter (fun w => w ≠ "D") := by
        simp [List.filter_cons]
      rw [h1, h2, List.map_cons, ih2]
      simp
    · have h1 : explicitDropped ["A"] ["B", "C"] ("D" :: vs)
          = explicitDropped ["A"] ["B", "C"] vs := rfl
      have h2 : ("D" :: vs).filter (fun w => w ≠ "D") = vs.filter (fun w => w ≠ "D") := by
        simp [List.filter_cons]
      rw [h1, h2, ih2]

theorem analyze_folder_loop_ok {τ : Type}
    (analyze : Option GMap → τ → Except String (List BiasMain.ResultEntry))
    (gmEval : Except String (Option GMap)) :
    ∀ files : List (BatchFile τ), (∀ f ∈ files, ∃ t, f.readResult = Except.ok t) →
      analyze_folder_loop analyze gmEval files
        = .ok (files.flatMap (fun f => if extOk f.name then fileRows analyze gmEval f else []))
  | [], _ => rfl
  | f :: fs, hread => by
    obtain ⟨t, ht⟩ := hread f (List.mem_cons_self f fs)
    have ih := analyze_folder_loop_ok analyze gmEval fs
      (fun g hg => hread g (List.mem_cons_of_mem _ hg))
    unfold analyze_folder_loop
    by_cases hext : extOk f.name = true
    · rw [if_pos hext, ht]
      dsimp only
      rw [ih, List.flatMap_cons, if_pos hext]
      unfold fileRows
      rw [ht]
    · rw [if_neg hext, ih, List.flatMap_cons, if_neg hext, List.nil_append]

/-! Claim theorems. -/

/-- C2 counterexample: a contained data file whose read fails (a pandas
reader exception, raised outside the per-file try block) aborts the whole
batch with that error; no result entry is recorded for the file and the
remaining files are never processed, so the claim that no per-file
failure aborts the batch is false. -/
theorem c2_counterexample :
    analyze_folder_loop (τ := Unit) (fun _ _ => Except.ok []) (Except.ok none)
      [⟨"a.csv", Except.error "bad csv"⟩, ⟨"b.csv", Except.ok ()⟩]
      = Except.error "bad csv" := rfl

/-- C2 (amended): when every contained data file reads successfully, the
batch never aborts: each file contributes its rows in order, an analysis
failure on a file is captured as an error row carrying that file name and
the remaining files still contribute; only a failure of the file read
itself aborts the batch. -/
theorem c2_batch_error_capture {τ : Type}
    (analyze : Option GMap → τ → Except String (List BiasMain.ResultEntry))
    (gmEval : Except String (Option GMap)) (files : List (BatchFile τ))
    (hread : ∀ f ∈ files, ∃ t, f.readResult = Except.ok t) :
    analyze_folder_loop analyze gmEval files
      = .ok (files.flatMap (fun f => if extOk f.name then fileRows analyze gmEval f else []))
    ∧ ∀ f ∈ files, extOk f.name = true → ∀ gm, gmEval = .ok gm →
        ∀ t, f.readResult = .ok t → ∀ m, RunRow.err m ∈ run_bias_analysis analyze gm t →
          BatchRow.err f.name m
            ∈ files.flatMap (fun f => if extOk f.name then fileRows analyze gmEval f else []) := by
  refine ⟨analyze_folder_loop_ok analyze gmEval files hread, ?_⟩
  intro f hf hext gm hgm t ht m hm
  have hrow : BatchRow.err f.name m ∈ fileRows analyze gmEval f := by
    unfold fileRows
    rw [ht, hgm]
    exact List.mem_map.mpr ⟨RunRow.err m, hm, rfl⟩
  exact List.mem_flatMap.mpr ⟨f, hf, by rw [if_pos hext]; exact hrow⟩

/-- C2 witness: a single readable file whose analysis raises is captured
as an error row keyed by the file name and the batch returns normally. -/
theorem c2_witness :
    analyze_folder_loop (τ := Unit) (fun _ _ => Except.error "boom") (Except.ok none)
      [⟨"a.csv", Except.ok ()⟩] = Except.ok [BatchRow.err "a.csv" "boom"] := by
  have h := (c2_batch_error_capture (τ := Unit) (fun _ _ => Except.error "boom")
    (Except.ok none) [⟨"a.csv", Except.ok ()⟩] (by
      intro f hf
      have hfe : f = ⟨"a.csv", Except.ok ()⟩ := List.mem_singleton.mp hf
      rw [hfe]
      exact ⟨(), rfl⟩)).1
  rw [h]
  rfl

/-- C8: feed entries without a parseable publish timestamp are skipped by
the scraper without error, and every emitted record originates from an
entry with a parsed timestamp at or after the cutoff. -/
theorem c8_unparseable_skipped (clean : String → String) (cutoff : Int)
    (maxResults modelId : Nat) (updateType : String)
    (e : Scraper.FeedEntry) (es : List Scraper.FeedEntry) (count : Nat)
    (he : e.published = none) :
    Scraper.collectEntries clean cutoff maxResults modelId updateType (e :: es) count
      = Scraper.collectEntries clean cutoff maxResults modelId updateType es count
    ∧ ∀ (entries : List Scraper.FeedEntry) (c : Nat) (r : Scraper.UpdateRecord),
        r ∈ Scraper.collectEntries clean cutoff maxResults modelId updateType entries c →
        ∃ en ∈ entries, ∃ tp : Int, en.published = some tp ∧ cutoff ≤ tp
          ∧ r = Scraper.mkRecord clean modelId updateType en tp := by
  constructor
  · simp only [Scraper.collectEntries, he]
  · intro entries
    induction entries with
    | nil =>
      intro c r hr
      exact absurd hr (by simp [Scraper.collectEntries])
    | cons en ens ih =>
      intro c r hr
      unfold Scraper.collectEntries at hr
      cases hp : en.published with
      | none =>
        rw [hp] at hr
        dsimp only at hr
        obtain ⟨en2, hen2, tp, htp⟩ := ih c r hr
        exact ⟨en2, List.mem_cons_of_mem _ hen2, tp, htp⟩
      | some tp =>
        rw [hp] at hr
        dsimp only at hr
        split_ifs at hr with h1 h2
        · obtain ⟨en2, hen2, tp2, htp2⟩ := ih c r hr
          exact ⟨en2, List.mem_cons_of_mem _ hen2, tp2, htp2⟩
        · have hr2 : r = Scraper.mkRecord clean modelId updateType en tp :=
            List.mem_singleton.mp hr
          exact ⟨en, List.mem_cons_self _ _, tp, hp, not_lt.mp h1, hr2⟩
        · rcases List.mem_cons.mp hr with rfl | hr2
          · exact ⟨en, List.mem_cons_self _ _, tp, hp, not_lt.mp h1, rfl⟩
          · obtain ⟨en2, hen2, tp2, htp2⟩ := ih (c + 1) r hr2
            exact ⟨en2, List.mem_cons_of_mem _ hen2, tp2, htp2⟩

/-- C8 witness: a feed entry without a publish timestamp contributes
nothing to the output. -/
theorem c8_witness :
    Scraper.collectEntries id 0 5 1 "security" [sampleEntryNoDate] 0
      = Scraper.collectEntries id 0 5 1 "security" [] 0 :=
  (c8_unparseable_skipped id 0 5 1 "security" sampleEntryNoDate [] 0 rfl).1

/-- C9: the upsert writer is a no-op returning zero on an empty batch;
on a nonempty batch it performs exactly one commit and returns the record
count; and on a source_url conflict it overwrites title, description,
update_type and update_date of the matching row while preserving its
frontier_model_id, leaving the row count and every other row unchanged. -/
theorem c9_upsert_semantics (st : Scraper.DBState) (records : List Scraper.UpdateRecord)
    (t : List Scraper.UpdateRecord) (r row : Scraper.UpdateRecord)
    (hconf : ∃ o ∈ t, o.source_url = r.source_url)
    (hrow : row ∈ Scraper.upsertRow t r) :
    Scraper.insert_into_db st [] = (st, 0)
    ∧ (records ≠ [] → (Scraper.insert_into_db st records).1.commits = st.commits + 1
        ∧ (Scraper.insert_into_db st records).2 = records.length
        ∧ (Scraper.insert_into_db st records).1.table
            = records.foldl Scraper.upsertRow st.table)
    ∧ (Scraper.upsertRow t r).length = t.length
    ∧ (row.source_url = r.source_url →
        row.title = r.title ∧ row.description = r.description
        ∧ row.update_type = r.update_type ∧ row.update_date = r.update_date
        ∧ ∃ o ∈ t, o.source_url = r.source_url ∧ row.frontier_model_id = o.frontier_model_id)
    ∧ (row.source_url ≠ r.source_url → row ∈ t) := by
  have hany : (t.any fun row => row.source_url = r.source_url) = true := by
    obtain ⟨o, ho, he⟩ := hconf
    exact List.any_eq_true.mpr ⟨o, ho, decide_eq_true he⟩
  have hmap : row ∈ t.map (fun row =>
      if row.source_url = r.source_url then
        { row with title := r.title, description := r.description,
                   update_type := r.update_type, update_date := r.update_date }
      else row) := by
    rw [Scraper.upsertRow, if_pos hany] at hrow
    exact hrow
  obtain ⟨o, ho, hg⟩ := List.mem_map.mp hmap
  refine ⟨rfl, ?_, ?_, ?_, ?_⟩
  · intro hne
    cases records with
    | nil => exact absurd rfl hne
    | cons a as => exact ⟨rfl, rfl, rfl⟩
  · rw [Scraper.upsertRow, if_pos hany]
    exact List.length_map t _
  · intro hsr
    by_cases hos : o.source_url = r.source_url
    · rw [if_pos hos] at hg
      rw [← hg]
      exact ⟨rfl, rfl, rfl, rfl, o, ho, hos, rfl⟩
    · rw [if_neg hos] at hg
      rw [← hg] at hsr
      exact absurd hsr hos
  · intro hsr
    by_cases hos : o.source_url = r.source_url
    · rw [if_pos hos] at hg
      rw [← hg] at hsr
      exact absurd hos hsr
    · rw [if_neg hos] at hg
      rw [← hg]
      exact ho

/-- C9 witness: against a table holding one row keyed by the shared
source_url, an empty batch is a no-op returning zero and a one-record
batch commits once and returns one, leaving one row. -/
theorem c9_witness :
    Scraper.insert_into_db ⟨[sampleRowA], 0⟩ [] = (⟨[sampleRowA], 0⟩, 0)
    ∧ (Scraper.insert_into_db ⟨[sampleRowA], 0⟩ [sampleRecB]).1.commits = 0 + 1
    ∧ (Scraper.insert_into_db ⟨[sampleRowA], 0⟩ [sampleRecB]).2 = 1
    ∧ (Scraper.upsertRow [sampleRowA] sampleRecB).length = 1 := by
  have h := c9_upsert_semantics ⟨[sampleRowA], 0⟩ [sampleRecB] [sampleRowA] sampleRecB
    ⟨1, "t2", "d2", "feature", "u", 20⟩ ⟨sampleRowA, by decide, by decide⟩ (by decide)
  have hne : ([sampleRecB] : List Scraper.UpdateRecord) ≠ [] := by simp
  exact ⟨h.1, (h.2.1 hne).1, (h.2.1 hne).2.1, h.2.2.1⟩

/-- C1 counterexample: for a disparate_impact score of exactly 0.8 the
strict-threshold formatter of main.py reports fail, not pass as the claim
states, because its rule is strictly greater-than. -/
theorem c1_counterexample :
    BiasMain.determine_metric_status (FVal.num (4 / 5)) (4 / 5) "disparate_impact" = "fail"
    ∧ ("fail" : String) ≠ "pass" := by
  constructor
  · have hq : ¬((4 : ℚ) / 5 < 4 / 5) := lt_irrefl _
    simp [BiasMain.determine_metric_status, FVal.gtQ, hq]
  · decide

/-- C1 (amended): for a disparate_impact score of exactly 0.8 the
strict-threshold formatter of main.py reports fail while the range
formatter of utils.py reports pass; in general the main.py variant passes
disparate_impact iff the score is strictly greater than 0.8 and the
utils.py variant passes iff the value lies in the inclusive range 0.8 to
1.2. -/
theorem c1_formatter_rules :
    BiasMain.determine_metric_status (FVal.num (4 / 5)) (4 / 5) "disparate_impact" = "fail"
    ∧ (BiasUtils.determine_metric_status (FVal.num (4 / 5)) "disparate_impact").1 = "pass"
    ∧ (∀ q : ℚ, BiasMain.determine_metric_status (FVal.num q) (4 / 5) "disparate_impact" = "pass"
        ↔ 4 / 5 < q)
    ∧ (∀ q : ℚ, (BiasUtils.determine_metric_status (FVal.num q) "disparate_impact").1 = "pass"
        ↔ (4 / 5 ≤ q ∧ q ≤ 6 / 5)) := by
  refine ⟨?_, ?_, ?_, ?_⟩
  · have hq : ¬((4 : ℚ) / 5 < 4 / 5) := lt_irrefl _
    simp [BiasMain.determine_metric_status, FVal.gtQ, hq]
  · have h1 : (4 : ℚ) / 5 ≤ 4 / 5 := le_refl _
    have h2 : (4 : ℚ) / 5 ≤ 6 / 5 := by norm_num
    simp [BiasUtils.determine_metric_status, FVal.inRange, h1, h2]
  · intro q
    by_cases hq : (4 : ℚ) / 5 < q
    · simp [BiasMain.determine_metric_status, FVal.gtQ, hq]
    · simp [BiasMain.determine_metric_status, FVal.gtQ, hq]
  · intro q
    by_cases h1 : (4 : ℚ) / 5 ≤ q
    · by_cases h2 : q ≤ 6 / 5
      · simp [BiasUtils.determine_metric_status, FVal.inRange, h1, h2]
      · simp [BiasUtils.determine_metric_status, FVal.inRange, h1, h2]
    · simp [BiasUtils.determine_metric_status, FVal.inRange, h1]

/-- C3 counterexample: on the column b then a, simple_detect_groups
chooses b as the privileged source value although a is the
lexicographically smallest, so the claim that every fallback path picks
the two lexicographically smallest values with the smaller privileged is
false. -/
theorem c3_counterexample :
    simpleDetectFallbackChoice ["b", "a"] = some ("b", "a")
    ∧ sortStrings (uniqueVals ["b", "a"]) = ["a", "b"]
    ∧ (("b", "a") : String × String) ≠ ("a", "b") := by
  refine ⟨by decide, by decide, by decide⟩

/-- C3 (amended): the fallback of preprocess_data selects the two
lexicographically smallest distinct values, assigning the smaller as
privileged; the fallback of simple_detect_groups instead selects the
first two distinct values in order of appearance, which need not be the
lexicographically smallest. -/
theorem c3_fallback_choice :
    (∀ (col : List String) (p u : String), preprocessFallbackChoice col = some (p, u) →
        sortStrings (uniqueVals col) = [p, u] ∧ strLe p u = true)
    ∧ (∀ (col : List String) (p u : String) (rest : List String),
        uniqueVals col = p :: u :: rest → simpleDetectFallbackChoice col = some (p, u)) := by
  constructor
  · intro col p u h
    unfold preprocessFallbackChoice at h
    split at h
    · rename_i p2 u2 hsorted
      have hpu : (p2, u2) = (p, u) := Option.some.inj h
      have hp : p2 = p := congrArg Prod.fst hpu
      have hu : u2 = u := congrArg Prod.snd hpu
      rw [← hp, ← hu]
      have hs := sortStrings_sorted (uniqueVals col)
      rw [hsorted] at hs
      exact ⟨hsorted, List.rel_of_sorted_cons hs u2 (by simp)⟩
    · exact absurd h (by simp)
  · intro col p u rest h
    unfold simpleDetectFallbackChoice
    rw [h]

/-- C4: whenever the protected-attribute preprocessing succeeds, the
mapped column contains only 0.0 and 1.0, both values are present, and the
re-check at dataset creation accepts it; conversely the re-check rejects
any column missing either value with a validation error naming the
attribute and the observed values. -/
theorem c4_binary_invariant (attr : String) (col : List String) (gms : GMap) (out : List ℚ)
    (h : preprocess_data attr col gms = .ok out) :
    (∀ x ∈ out, x = 0 ∨ x = 1) ∧ (1 : ℚ) ∈ out ∧ (0 : ℚ) ∈ out
    ∧ createDatasetCheck attr out = .ok ()
    ∧ ∀ col2 : List ℚ, ¬((1 : ℚ) ∈ col2 ∧ (0 : ℚ) ∈ col2) →
        createDatasetCheck attr col2 = .error (.datasetCheckFailed attr (uniqueVals col2)) := by
  obtain ⟨hbin, h1, h0⟩ := preprocess_data_ok attr col gms out h
  refine ⟨fun x hx => (hbin x hx).elim Or.inr Or.inl, h1, h0, ?_, ?_⟩
  · unfold createDatasetCheck
    rw [if_pos ⟨(mem_uniqueVals _ _).mpr h1, (mem_uniqueVals _ _).mpr h0⟩]
  · intro col2 hno
    unfold createDatasetCheck
    rw [if_neg (fun hc => hno ⟨(mem_uniqueVals _ _).mp hc.1, (mem_uniqueVals _ _).mp hc.2⟩)]

/-- C4 witness: on the two-valued column m, f with no mapping the
preprocessing succeeds with the column 0.0, 1.0, both values are present
and the dataset-creation re-check accepts it. -/
theorem c4_witness :
    (1 : ℚ) ∈ ([0, 1] : List ℚ) ∧ (0 : ℚ) ∈ ([0, 1] : List ℚ)
    ∧ createDatasetCheck "sex" [0, 1] = .ok () := by
  have h := c4_binary_invariant "sex" ["m", "f"] [] [0, 1] (by decide)
  exact ⟨h.2.1, h.2.2.1, h.2.2.2.1⟩

/-- C10: whenever simple_detect_groups succeeds it returns exactly the
singleton groups attr to 1.0 and attr to 0.0 for the first protected
attribute, a constant independent of the data values and of the mapping
contents. -/
theorem c10_detect_groups_constant (df : DataFrame) (attrs : List String) (gms : GMap)
    (pg ug : List (String × ℚ))
    (h : simple_detect_groups df attrs gms = .ok (pg, ug)) :
    (∃ attr rest, attrs = attr :: rest ∧ pg = [(attr, 1)] ∧ ug = [(attr, 0)])
    ∧ ∀ (df2 : DataFrame) (gms2 : GMap) (pg2 ug2 : List (String × ℚ)),
        simple_detect_groups df2 attrs gms2 = .ok (pg2, ug2) → pg2 = pg ∧ ug2 = ug := by
  obtain ⟨attr, rest, ha, hres⟩ := simple_detect_groups_ok df attrs gms (pg, ug) h
  have hpg : pg = [(attr, 1)] := congrArg Prod.fst hres
  have hug : ug = [(attr, 0)] := congrArg Prod.snd hres
  refine ⟨⟨attr, rest, ha, hpg, hug⟩, ?_⟩
  intro df2 gms2 pg2 ug2 h2
  obtain ⟨attr2, rest2, ha2, hres2⟩ := simple_detect_groups_ok df2 attrs gms2 (pg2, ug2) h2
  have hcons := ha.symm.trans ha2
  injection hcons with hattr hrest
  subst hattr
  have hpg2 : pg2 = [(attr, 1)] := congrArg Prod.fst hres2
  have hug2 : ug2 = [(attr, 0)] := congrArg Prod.snd hres2
  exact ⟨hpg2.trans hpg.symm, hug2.trans hug.symm⟩

/-- C5: with the explicit mapping privileged A, unprivileged B and C over
rows drawn from A, B, C, D with A and B present, preprocessing succeeds,
rows with D are exactly the dropped ones, A maps to 1.0 while B and C map
to 0.0, the column contains only 0.0 and 1.0, and the row count is the
original count minus the number of D rows. -/
theorem c5_explicit_mapping_drop (attr : String) (col : List String)
    (hmem : ∀ v ∈ col, v ∈ (["A", "B", "C", "D"] : List String))
    (hA : "A" ∈ col) (hB : "B" ∈ col) :
    ∃ out, preprocess_data attr col
        [(attr, { privileged := some (.list ["A"]), unprivileged := some (.list ["B", "C"]) })]
        = .ok out
      ∧ out = (col.filter (fun v => v ≠ "D")).map (fun v => if v = "A" then (1 : ℚ) else 0)
      ∧ (∀ x ∈ out, x = 0 ∨ x = 1)
      ∧ out.length = col.length - col.count "D" := by
  have h1 : (1 : ℚ) ∈ explicitDropped ["A"] ["B", "C"] col := by
    unfold explicitDropped
    exact List.mem_filterMap.mpr ⟨some 1, List.mem_map.mpr ⟨"A", hA, rfl⟩, rfl⟩
  have h0 : (0 : ℚ) ∈ explicitDropped ["A"] ["B", "C"] col := by
    unfold explicitDropped
    exact List.mem_filterMap.mpr ⟨some 0, List.mem_map.mpr ⟨"B", hB, rfl⟩, rfl⟩
  have hl : lookupMapping
      [(attr, { privileged := some (.list ["A"]), unprivileged := some (.list ["B", "C"]) })]
      attr = some { privileged := some (.list ["A"]), unprivileged := some (.list ["B", "C"]) } := by
    simp [lookupMapping]
  have hok : preprocess_data attr col
      [(attr, { privileged := some (.list ["A"]), unprivileged := some (.list ["B", "C"]) })]
      = .ok (explicitDropped ["A"] ["B", "C"] col) := by
    unfold preprocess_data
    rw [hl]
    unfold preprocessExplicit
    dsimp only
    rw [if_pos ⟨(mem_uniqueVals _ _).mpr h1, (mem_uniqueVals _ _).mpr h0⟩]
    rfl
  refine ⟨explicitDropped ["A"] ["B", "C"] col, hok, explicitDropped_ABCD col hmem,
    fun x hx => ((mem_mapped_binary _ (mapExplicit_cases _ _) col x hx).elim Or.inr Or.inl),
    ?_⟩
  rw [explicitDropped_ABCD col hmem, List.length_map, filter_ne_length]

/-- C5 witness: on the concrete rows A, B, C, D the explicit mapping
yields the column 1.0, 0.0, 0.0, dropping the single D row. -/
theorem c5_witness :
    preprocess_data "g" ["A", "B", "C", "D"]
      [("g", { privileged := some (.list ["A"]), unprivileged := some (.list ["B", "C"]) })]
      = .ok [1, 0, 0] := by
  obtain ⟨out, hok, hval, _, _⟩ := c5_explicit_mapping_drop "g" ["A", "B", "C", "D"]
    (by decide) (by decide) (by decide)
  rw [hok, hval]
  rfl

/-- C6: with more than two distinct values and no mapping for the
attribute, preprocessing fails with the validation error carrying the
attribute name and the sorted observed values, and the analysis pipeline
returns that error and produces no metric result, whatever the metric
library would compute. -/
theorem c6_too_many_values (attr : String) (col : List String) (gms : GMap)
    (hno : lookupMapping gms attr = none)
    (hcard : 2 < (sortStrings (uniqueVals col)).length) :
    preprocess_data attr col gms = .error (.tooManyUnique attr (sortStrings (uniqueVals col)))
    ∧ ∀ computeMetrics, analyzePipeline computeMetrics attr col gms
        = .error (.tooManyUnique attr (sortStrings (uniqueVals col))) := by
  have hpre : preprocess_data attr col gms
      = .error (.tooManyUnique attr (sortStrings (uniqueVals col))) := by
    unfold preprocess_data
    rw [hno]
    dsimp only
    unfold preprocessFallback
    split
    · rename_i p u hsorted
      rw [hsorted] at hcard
      simp at hcard
    · rw [if_pos hcard]
  refine ⟨hpre, fun computeMetrics => ?_⟩
  unfold analyzePipeline
  rw [hpre]

/-- C6 witness: three distinct values and no mapping produce the
validation error naming the attribute and the observed values. -/
theorem c6_witness :
    preprocess_data "g" ["a", "b", "c"] []
      = .error (.tooManyUnique "g" ["a", "b", "c"]) := by
  have h := (c6_too_many_values "g" ["a", "b", "c"] [] rfl (by decide)).1
  rw [h]
  rfl

/-- C7 counterexample: the utils.py formatter writes the raw NaN value
into the score field instead of the explicit unavailable (null) value, so
the claim that every formatter reports NaN as null is false. -/
theorem c7_counterexample :
    (BiasUtils.format_results_for_output [("disparate_impact", FVal.nan)]).map
      (fun e => e.score) = [some FVal.nan]
    ∧ some FVal.nan ≠ (none : Option FVal) := by
  exact ⟨rfl, by simp⟩

/-- C7 (amended): the main.py formatter reports every score through
safe_float, so NaN and infinite scores come out as the explicit null
score; the utils.py formatter propagates the raw value instead. -/
theorem c7_safe_float_scores (ms : List (String × FVal)) (out : List BiasMain.ResultEntry)
    (h : BiasMain.format_results_for_output ms = .ok out) :
    List.Forall₂ (fun (m : String × FVal) (e : BiasMain.ResultEntry) =>
      e.score = BiasMain.safe_float m.2) ms out
    ∧ BiasMain.safe_float FVal.nan = none
    ∧ BiasMain.safe_float FVal.inf = none
    ∧ BiasMain.safe_float FVal.ninf = none := by
  refine ⟨?_, rfl, rfl, rfl⟩
  induction ms generalizing out with
  | nil =>
    have hout : (Except.ok ([] : List BiasMain.ResultEntry) : Except BiasError _)
        = Except.ok out := h
    rw [← Except.ok.inj hout]
    exact List.Forall₂.nil
  | cons m rest ih =>
    obtain ⟨name, v⟩ := m
    unfold BiasMain.format_results_for_output at h
    split at h
    · exact absurd h (by simp)
    · split at h
      · exact absurd h (by simp)
      · rename_i restOut hrest
        have hout := Except.ok.inj h
        rw [← hout]
        exact List.Forall₂.cons rfl (ih restOut hrest)

/-- C7 witness: formatting a NaN disparate_impact score through the
main.py formatter yields a null score. -/
theorem c7_witness :
    List.Forall₂ (fun (m : String × FVal) (e : BiasMain.ResultEntry) =>
      e.score = BiasMain.safe_float m.2) [("disparate_impact", FVal.nan)]
      [{ metric_name := displayName "disparate_impact", score := none, threshold := 4 / 5,
         status := "fail", demographic_group := "overall" }]
    ∧ BiasMain.safe_float FVal.nan = none
    ∧ BiasMain.safe_float FVal.inf = none
    ∧ BiasMain.safe_float FVal.ninf = none :=
  c7_safe_float_scores [("disparate_impact", FVal.nan)] _ rfl

/-- C10 witness: on a concrete frame with two raw values and no mapping,
detection succeeds and returns the constant groups for the attribute. -/
theorem c10_witness :
    ∃ attr rest, (["g"] : List String) = attr :: rest
    ∧ [("g", (1 : ℚ))] = [(attr, 1)] ∧ [("g", (0 : ℚ))] = [(attr, 0)] :=
  (c10_detect_groups_constant [("g", ["x", "y"])] ["g"] [] [("g", 1)] [("g", 0)]
    (by decide)).1

end MultiTenantSaaS
